import Mathlib

/-!
Verification development for the simplify-hono REST-API generator.

The definitions below are a shallow embedding of the request-handling core
found in `src/adapters/drizzle.ts` (condition compiler, query assembler,
mutation assembler) and of the schema walker in the OpenAPI generator.
JavaScript values flowing through the handlers are modelled by `JsonValue`;
the drizzle-orm condition primitives that the handlers invoke are modelled
by the constructors of `Predicate`; the database executor is an explicit
function parameter, so "the executor is never invoked" is expressed as the
response being independent of it.
-/

namespace YukiDb

/-- A JSON/JavaScript value as produced by `JSON.parse` and passed through
the handlers. Numbers are modelled as integers (the claims only exercise
integral values). -/
inductive JsonValue where
  | null
  | bool (b : Bool)
  | num (n : Int)
  | str (s : String)
  | arr (elems : List JsonValue)
  | obj (fields : List (String × JsonValue))

/-- JavaScript truthiness of a `JsonValue` (`undefined` is represented by
`Option.none` at use sites). -/
def jsTruthy : JsonValue → Bool
  | .null => false
  | .bool b => b
  | .num n => n != 0
  | .str s => !s.isEmpty
  | .arr _ => true
  | .obj _ => true

/-- Property access `v[k]` for a string key: only objects have (own) string
keys; arrays are keyed by indices and never by names such as "AND". -/
def jsGet (v : JsonValue) (k : String) : Option JsonValue :=
  match v with
  | .obj fields => List.lookup k fields
  | _ => none

/-- The own enumerable entries of a value, as walked by `for...in` /
`objectToEntries` in the source: objects yield their fields in insertion
order, arrays yield index-keyed entries, strings yield index-keyed
characters, and primitives yield nothing. -/
def jsOwnEntries : JsonValue → List (String × JsonValue)
  | .obj fields => fields
  | .arr xs => ((List.range xs.length).zip xs).map (fun p => (toString p.1, p.2))
  | .str s => ((List.range s.length).zip s.toList).map (fun p => (toString p.1, .str (String.singleton p.2)))
  | _ => []

/-- The own enumerable keys of a value (`Object.keys`). -/
def jsKeys (v : JsonValue) : List String :=
  (jsOwnEntries v).map Prod.fst

/-- The check `typeof v === 'object'` for non-null values reaching the
handlers' object checks (arrays and plain objects). -/
def isObjectType : JsonValue → Bool
  | .obj _ => true
  | .arr _ => true
  | _ => false

/-- The condition language of the storage executor (drizzle-orm's condition
builders `eq`, `gt`, `gte`, `lt`, `lte`, `like`, `ilike`, `not`, `and`,
`or`). `like` is the case-sensitive pattern primitive and `ilike` the
case-insensitive one; the source file imports only `ilike` of the two. -/
inductive Predicate where
  | eq (col : String) (v : JsonValue)
  | gt (col : String) (v : JsonValue)
  | gte (col : String) (v : JsonValue)
  | lt (col : String) (v : JsonValue)
  | lte (col : String) (v : JsonValue)
  | like (col : String) (v : JsonValue)
  | ilike (col : String) (v : JsonValue)
  | not (p : Predicate)
  | and (ps : List Predicate)
  | or (ps : List Predicate)

/-- Modelled from drizzle-orm's variadic `and(...)`: applied to a single
condition it returns that condition itself, otherwise a conjunction. The
source only calls it on non-empty lists. -/
def sqlAnd : List Predicate → Predicate
  | [p] => p
  | ps => .and ps

/-- Modelled from drizzle-orm's variadic `or(...)`: applied to a single
condition it returns that condition itself, otherwise a disjunction. -/
def sqlOr : List Predicate → Predicate
  | [p] => p
  | ps => .or ps

/-- The operator switch inside `buildWhereCondition`'s field processing:
`eq`→`eq`, `ne`→`not(eq)`, `gt`/`gte`/`lt`/`lte` direct, and both `like`
and `ilike`→`ilike`; anything else yields `undefined` (skipped). -/
def compileFieldOperator (col : String) (op : String) (v : JsonValue) : Option Predicate :=
  match op with
  | "eq" => some (.eq col v)
  | "ne" => some (.not (.eq col v))
  | "gt" => some (.gt col v)
  | "gte" => some (.gte col v)
  | "lt" => some (.lt col v)
  | "lte" => some (.lte col v)
  | "like" => some (.ilike col v)
  | "ilike" => some (.ilike col v)
  | _ => none

/-- One iteration of `buildWhereCondition`'s field loop: logical keys are
skipped here (handled separately), unknown columns are dropped, an
object-typed value is compiled operator-by-operator and the survivors are
conjoined, and any other value is shorthand for equality. -/
def fieldNodeCondition (cols : List String) (key : String) (value : JsonValue) : Option Predicate :=
  if key = "AND" ∨ key = "OR" ∨ key = "NOT" then none
  else if cols.contains key then
    if isObjectType value then
      match (jsOwnEntries value).filterMap (fun e => compileFieldOperator key e.1 e.2) with
      | [] => none
      | fcs => some (sqlAnd fcs)
    else some (.eq key value)
  else none

/-- A size measure on JSON values, used only to provide sufficient fuel to
the condition compiler below (the source recursion always descends into a
strictly smaller value). -/
def jsonSize : JsonValue → Nat
  | .null => 1
  | .bool _ => 1
  | .num _ => 1
  | .str _ => 1
  | .arr xs => 1 + (xs.attach.map (fun x => jsonSize x.1)).sum
  | .obj fs => 1 + (fs.attach.map (fun p => jsonSize p.1.2)).sum
termination_by v => sizeOf v
decreasing_by
  · have := List.sizeOf_lt_of_mem x.2
    simp only [JsonValue.arr.sizeOf_spec]
    omega
  · have h1 := List.sizeOf_lt_of_mem p.2
    have h2 : sizeOf (p.1).2 < sizeOf p.1 := by
      obtain ⟨k, w⟩ := p.1
      simp only [Prod.mk.sizeOf_spec]
      omega
    simp only [JsonValue.obj.sizeOf_spec]
    omega

theorem jsonSize_arr (xs : List JsonValue) :
    jsonSize (.arr xs) = 1 + (xs.map jsonSize).sum := by
  rw [jsonSize]
  congr 1
  exact congrArg List.sum (List.attach_map_coe xs jsonSize)

theorem jsonSize_obj (fs : List (String × JsonValue)) :
    jsonSize (.obj fs) = 1 + (fs.map (fun p => jsonSize p.2)).sum := by
  rw [jsonSize]
  congr 1
  exact congrArg List.sum (List.attach_map_coe fs (fun p => jsonSize p.2))

theorem one_le_jsonSize (v : JsonValue) : 1 ≤ jsonSize v := by
  cases v <;> simp [jsonSize, jsonSize_arr, jsonSize_obj]

theorem jsonSize_lookup_lt {k : String} {fields : List (String × JsonValue)} {w : JsonValue}
    (h : List.lookup k fields = some w) : jsonSize w < jsonSize (.obj fields) := by
  induction fields with
  | nil => simp [List.lookup] at h
  | cons a as ih =>
    obtain ⟨k', b⟩ := a
    simp only [List.lookup] at h
    rw [jsonSize_obj]
    by_cases hk : k == k'
    · rw [hk] at h
      simp only [Option.some.injEq] at h
      subst h
      simp only [List.map_cons, List.sum_cons]
      omega
    · rw [Bool.eq_false_iff.mpr hk] at h
      have := ih h
      rw [jsonSize_obj] at this
      simp only [List.map_cons, List.sum_cons]
      omega

theorem jsonSize_jsGet_lt {v w : JsonValue} {k : String} (h : jsGet v k = some w) :
    jsonSize w < jsonSize v := by
  cases v <;> simp only [jsGet] at h <;> try exact absurd h (by simp)
  case obj fields => exact jsonSize_lookup_lt h

theorem jsonSize_mem_arr {x : JsonValue} {xs : List JsonValue} (h : x ∈ xs) :
    jsonSize x < jsonSize (JsonValue.arr xs) := by
  rw [jsonSize_arr]
  have hle : jsonSize x ≤ (xs.map jsonSize).sum :=
    List.single_le_sum (fun y _ => Nat.zero_le y) _ (List.mem_map_of_mem jsonSize h)
  omega

/-- The `AND`/`OR` processing of `buildWhereCondition`: when the property
`k` holds an array, each element is compiled with `recur` and the
undefined results are discarded; otherwise nothing is contributed. -/
def logicalArrayConds (recur : JsonValue → Option Predicate) (v : JsonValue) (k : String) : List Predicate :=
  match jsGet v k with
  | some (.arr xs) => xs.filterMap recur
  | _ => []

/-- The `NOT` processing of `buildWhereCondition`: a truthy `NOT` value is
compiled with `recur` and wrapped in `not` when it yields a condition. -/
def logicalNotConds (recur : JsonValue → Option Predicate) (v : JsonValue) : List Predicate :=
  match jsGet v "NOT" with
  | some w =>
    if jsTruthy w then
      match recur w with
      | some c => [Predicate.not c]
      | none => []
    else []
  | none => []

/-- The field-condition loop of `buildWhereCondition` over all entries. -/
def fieldConds (cols : List String) (v : JsonValue) : List Predicate :=
  (jsOwnEntries v).filterMap (fun e => fieldNodeCondition cols e.1 e.2)

/-- The tail of `buildWhereCondition`: the `AND` contribution (if any),
then `OR`, then `NOT`, then the field conditions, all conjoined; zero
surviving conditions yield "no predicate". -/
def assembleConds (andCs orCs notCs fieldCs : List Predicate) : Option Predicate :=
  let conds : List Predicate :=
    (if andCs.isEmpty then [] else [sqlAnd andCs])
      ++ (if orCs.isEmpty then [] else [sqlOr orCs])
      ++ notCs ++ fieldCs
  if conds.isEmpty then none else some (sqlAnd conds)

/-- Fuel-indexed form of the condition compiler, structurally recursive on
the fuel. The recursion of the source always descends into a strictly
smaller value, so any fuel of at least `jsonSize v` gives the source's
behavior (`buildWhereAux_irrel`); `buildWhereCondition` below supplies
`jsonSize v`, so the zero-fuel arm is never reached from it. -/
def buildWhereAux : Nat → JsonValue → List String → Option Predicate
  | 0, _, _ => none
  | fuel + 1, v, cols =>
    if isObjectType v then
      assembleConds
        (logicalArrayConds (fun w => buildWhereAux fuel w cols) v "AND")
        (logicalArrayConds (fun w => buildWhereAux fuel w cols) v "OR")
        (logicalNotConds (fun w => buildWhereAux fuel w cols) v)
        (fieldConds cols v)
    else none

/-- The condition compiler `buildWhereCondition(whereObj, tableSchema)`:
non-objects compile to "no predicate"; otherwise the `AND`, `OR` and `NOT`
properties are compiled recursively (empty results discarded), every other
entry is treated as a field node, and all surviving conditions are
conjoined; zero survivors yield "no predicate". `cols` is the set of
column names of the table. -/
def buildWhereCondition (v : JsonValue) (cols : List String) : Option Predicate :=
  buildWhereAux (jsonSize v) v cols

theorem logicalArrayConds_congr {f g : JsonValue → Option Predicate} {v : JsonValue} {k : String}
    (h : ∀ w, jsonSize w < jsonSize v → f w = g w) :
    logicalArrayConds f v k = logicalArrayConds g v k := by
  unfold logicalArrayConds
  cases hk : jsGet v k with
  | none => rfl
  | some w =>
    cases w with
    | arr xs =>
      refine List.filterMap_congr (fun x hx => ?_)
      exact h x (lt_trans (jsonSize_mem_arr hx) (jsonSize_jsGet_lt hk))
    | null => rfl
    | bool b => rfl
    | num n => rfl
    | str s => rfl
    | obj fs => rfl

theorem logicalNotConds_congr {f g : JsonValue → Option Predicate} {v : JsonValue}
    (h : ∀ w, jsonSize w < jsonSize v → f w = g w) :
    logicalNotConds f v = logicalNotConds g v := by
  unfold logicalNotConds
  cases hk : jsGet v "NOT" with
  | none => rfl
  | some w =>
    dsimp only
    rw [h w (jsonSize_jsGet_lt hk)]

theorem buildWhereAux_irrel : ∀ (n : Nat) (v : JsonValue) (cols : List String) (f₁ f₂ : Nat),
    jsonSize v ≤ n → jsonSize v ≤ f₁ → jsonSize v ≤ f₂ →
    buildWhereAux f₁ v cols = buildWhereAux f₂ v cols := by
  intro n
  induction n with
  | zero =>
    intro v _ _ _ hn _ _
    exact absurd hn (by have := one_le_jsonSize v; omega)
  | succ n ih =>
    intro v cols f₁ f₂ hn h₁ h₂
    have hv := one_le_jsonSize v
    obtain ⟨a, rfl⟩ : ∃ a, f₁ = a + 1 := ⟨f₁ - 1, by omega⟩
    obtain ⟨b, rfl⟩ : ∃ b, f₂ = b + 1 := ⟨f₂ - 1, by omega⟩
    simp only [buildWhereAux]
    cases hobj : isObjectType v with
    | false => rfl
    | true =>
      have hrec : ∀ w, jsonSize w < jsonSize v →
          buildWhereAux a w cols = buildWhereAux b w cols := by
        intro w hw
        exact ih w cols a b (by omega) (by omega) (by omega)
      rw [logicalArrayConds_congr hrec, logicalArrayConds_congr hrec, logicalNotConds_congr hrec]

/-- The recursive call of the condition compiler, named so that the
unfolding lemma below can be used as a terminating rewrite rule. -/
def buildWhereRec (cols : List String) : JsonValue → Option Predicate :=
  fun w => buildWhereCondition w cols

theorem buildWhereRec_apply (cols : List String) (w : JsonValue) :
    buildWhereRec cols w = buildWhereCondition w cols := rfl

/-- One-step unfolding of `buildWhereCondition` with the recursion
re-expressed through `buildWhereCondition` itself. -/
theorem buildWhereCondition_unfold (v : JsonValue) (cols : List String) :
    buildWhereCondition v cols =
      if isObjectType v then
        assembleConds
          (logicalArrayConds (buildWhereRec cols) v "AND")
          (logicalArrayConds (buildWhereRec cols) v "OR")
          (logicalNotConds (buildWhereRec cols) v)
          (fieldConds cols v)
      else none := by
  have hv := one_le_jsonSize v
  obtain ⟨m, hm⟩ : ∃ m, jsonSize v = m + 1 := ⟨jsonSize v - 1, by omega⟩
  unfold buildWhereCondition
  rw [hm]
  simp only [buildWhereAux]
  cases hobj : isObjectType v with
  | false => rfl
  | true =>
    have hrec : ∀ w, jsonSize w < jsonSize v →
        buildWhereAux m w cols = buildWhereAux (jsonSize w) w cols := by
      intro w hw
      exact buildWhereAux_irrel m w cols m (jsonSize w) (by omega) (by omega) (by omega)
    rw [logicalArrayConds_congr hrec, logicalArrayConds_congr hrec, logicalNotConds_congr hrec]
    rfl

/-! Query-parameter parsing (`parseQueryParams`). -/

/-- Digit-prefix extraction for the model of `parseInt(s, 10)`: skip
leading whitespace, optional sign, then the longest leading run of
decimal digits; `NaN` (modelled as `none`) when no digit is found. -/
def takeDigits : List Char → List Char
  | c :: cs => if c.isDigit then c :: takeDigits cs else []
  | [] => []

def digitsToNat (ds : List Char) : Nat :=
  ds.foldl (fun acc c => acc * 10 + (c.toNat - 48)) 0

def parseIntJS (s : String) : Option Int :=
  match s.toList.dropWhile Char.isWhitespace with
  | '-' :: rest =>
    match takeDigits rest with
    | [] => none
    | ds => some (-(digitsToNat ds : Int))
  | '+' :: rest =>
    match takeDigits rest with
    | [] => none
    | ds => some (digitsToNat ds)
  | cs =>
    match takeDigits cs with
    | [] => none
    | ds => some (digitsToNat ds)

/-- The raw query string of a list/mutation request. A raw string param of
`none` means the parameter is absent (or empty, which the source treats as
absent via truthiness). `whereRaw`/`orderByRaw` pair the presence of the
parameter with the outcome of `JSON.parse` on it: `some none` means the
parameter was given but is not parseable JSON (`JSON.parse` throws), and
`some (some v)` means it parses to `v`. -/
structure RawQuery where
  select : Option String := none
  whereRaw : Option (Option JsonValue) := none
  orderByRaw : Option (Option JsonValue) := none
  limit : Option String := none
  page : Option String := none
  offset : Option String := none

/-- The structured `QueryParams` record built by `parseQueryParams`. -/
structure QueryParams where
  select : Option (List String) := none
  whereObj : Option JsonValue := none
  orderBy : Option JsonValue := none
  limit : Option Nat := none
  page : Option Nat := none
  offset : Option Nat := none

/-- The parser `parseQueryParams`: `select` is comma-split and trimmed; `where` and
`orderBy` keep their parsed JSON and a parse failure is silently ignored
(the field stays unset); `limit`/`page` are kept only when they parse to a
positive integer and `offset` only when non-negative. -/
def parseQueryParams (raw : RawQuery) : QueryParams :=
  { select :=
      match raw.select with
      | some s => if s.isEmpty then none else some ((s.splitOn ",").map String.trim)
      | none => none
    whereObj :=
      match raw.whereRaw with
      | some (some v) => some v
      | _ => none
    orderBy :=
      match raw.orderByRaw with
      | some (some v) => some v
      | _ => none
    limit :=
      match raw.limit with
      | some s =>
        if s.isEmpty then none
        else
          match parseIntJS s with
          | some n => if 0 < n then some n.toNat else none
          | none => none
      | none => none
    page :=
      match raw.page with
      | some s =>
        if s.isEmpty then none
        else
          match parseIntJS s with
          | some n => if 0 < n then some n.toNat else none
          | none => none
      | none => none
    offset :=
      match raw.offset with
      | some s =>
        if s.isEmpty then none
        else
          match parseIntJS s with
          | some n => if 0 ≤ n then some n.toNat else none
          | none => none
      | none => none }

/-! Response envelope and the query/mutation assemblers. -/

/-- The `meta` block of the response envelope. -/
structure RespMeta where
  total : Option Nat := none
  page : Option Nat := none
  limit : Option Nat := none
  offset : Option Nat := none

/-- The uniform response envelope `ApiResponse`. -/
structure Envelope where
  success : Bool
  data : Option JsonValue := none
  error : Option String := none
  message : Option String := none
  meta : Option RespMeta := none

/-- An HTTP response: status code plus envelope body. -/
structure ApiResult where
  status : Nat
  body : Envelope

def errorResponse (status : Nat) (msg : String) : ApiResult :=
  { status := status, body := { success := false, error := some msg } }

/-- A schema registry: table name to list of column names. -/
abbrev Schema := List (String × List String)

/-- Path handling of `extractTableFromUrl`: drop a leading `api` segment,
then the first remaining path segment is the table name (`null` when
missing). -/
def stripApiSegments : List String → List String
  | "api" :: rest => rest
  | ps => ps

def extractTableFromParts (pathParts : List String) : Option String :=
  match stripApiSegments pathParts with
  | [] => none
  | t :: _ => if t.isEmpty then none else some t

/-- Truthiness of an optional JS value (`undefined` for `none`). -/
def optTruthy : Option JsonValue → Bool
  | some w => jsTruthy w
  | none => false

/-- Truthiness of an optional JS number (`undefined` for `none`, `0` falsy). -/
def natTruthy : Option Nat → Bool
  | some k => k != 0
  | none => false

inductive OrderDir where
  | asc
  | desc
deriving Repr, DecidableEq

/-- One compiled `ORDER BY` term; `column := none` models the source
passing an undefined column reference (`tableSchema[key]` for a key, such
as `*`, that is not a property of the table) to `asc`/`desc`. -/
structure OrderTerm where
  column : Option String
  dir : OrderDir
deriving Repr, DecidableEq

/-- The single read query handed to the storage executor: selection set
(`none` = all columns), optional predicate, ordering, limit and offset. -/
structure BuiltQuery where
  table : String
  selectCols : Option (List String) := none
  whereCond : Option Predicate := none
  orderConds : List OrderTerm := []
  limit : Option Nat := none
  offset : Option Nat := none

/-- The direction validation of the `orderBy` loop: only the exact strings
`"asc"` and `"desc"` are accepted (case-sensitive, strings only). -/
def dirOf : JsonValue → Option OrderDir
  | .str s => if s = "asc" then some .asc else if s = "desc" then some .desc else none
  | _ => none

/-- The `ORDER BY` loop of the GET handler: each entry's key must pass
`validateFields` (a real column, or the literal `*` which that check lets
through), its direction must be exactly `asc` or `desc`, and the first
violation fails the whole request with 400. -/
def buildOrderConds (cols : List String) : List (String × JsonValue) → Except ApiResult (List OrderTerm)
  | [] => .ok []
  | (key, dirVal) :: rest =>
    if ¬ (key = "*" ∨ cols.contains key) then
      .error (errorResponse 400 ("Invalid field \"" ++ key ++ "\" in orderBy"))
    else
      match dirOf dirVal with
      | none => .error (errorResponse 400 ("Invalid direction for field \"" ++ key ++ "\". Use \"asc\" or \"desc\""))
      | some d =>
        match buildOrderConds cols rest with
        | .error e => .error e
        | .ok ts => .ok ({ column := if cols.contains key then some key else none, dir := d } :: ts)

/-- The pagination tail of the GET handler: a truthy `offset` wins;
otherwise, when both `page` and `limit` are truthy, the offset is
`(page - 1) * limit`; otherwise no offset is applied. -/
def effectiveOffset (params : QueryParams) : Option Nat :=
  if natTruthy params.offset then params.offset
  else
    match params.page, params.limit with
    | some p, some l => if p ≠ 0 ∧ l ≠ 0 then some ((p - 1) * l) else none
    | _, _ => none

/-- The field-selection step of the GET handler: a given, non-empty
`select` list is validated against the table's columns (and the literal
`*`); zero valid fields fail with 400; a surviving `*` short-circuits to
"all columns"; otherwise only the valid fields are kept (invalid ones are
silently dropped). -/
def selectStepF (cols : List String) (sel : Option (List String)) :
    Except ApiResult (Option (List String)) :=
  match sel with
  | some fields =>
    if fields.length > 0 then
      let validFields := fields.filter (fun f => f = "*" || cols.contains f)
      if validFields.length = 0 then
        .error (errorResponse 400 "No valid fields specified for selection")
      else if validFields.contains "*" then .ok none
      else .ok (some validFields)
    else .ok none
  | none => .ok none

/-- The `where` step of the GET handler: a truthy parsed `where` value is
compiled (a compile to "no predicate" simply leaves the query unfiltered). -/
def whereStepF (cols : List String) (w : Option JsonValue) : Option Predicate :=
  match w with
  | some w => if jsTruthy w then buildWhereCondition w cols else none
  | none => none

/-- The `orderBy` step of the GET handler: a truthy parsed `orderBy` value
has its own entries walked by the validation loop. -/
def orderStepF (cols : List String) (ob : Option JsonValue) :
    Except ApiResult (List OrderTerm) :=
  match ob with
  | some ob => if jsTruthy ob then buildOrderConds cols (jsOwnEntries ob) else .ok []
  | none => .ok []

/-- The GET (list) handler up to the point where the single read query is
handed to the executor, applied to the already-parsed query params: all
validation failures return an error response without any executor
involvement. -/
def buildGETp (schema : Schema) (pathParts : List String) (params : QueryParams) : Except ApiResult BuiltQuery :=
  match extractTableFromParts pathParts with
  | none => .error (errorResponse 400 "Table name is required in URL path")
  | some tableName =>
    match List.lookup tableName schema with
    | none => .error (errorResponse 404 ("Table \"" ++ tableName ++ "\" not found"))
    | some cols =>
      match selectStepF cols params.select with
      | .error e => .error e
      | .ok selectCols =>
        match orderStepF cols params.orderBy with
        | .error e => .error e
        | .ok orderConds =>
          .ok { table := tableName
                selectCols := selectCols
                whereCond := whereStepF cols params.whereObj
                orderConds := orderConds
                limit := if natTruthy params.limit then params.limit else none
                offset := effectiveOffset params }

/-- The GET handler up to the executor, from the raw query string. -/
def buildGET (schema : Schema) (pathParts : List String) (raw : RawQuery) : Except ApiResult BuiltQuery :=
  buildGETp schema pathParts (parseQueryParams raw)

/-- A storage executor for read queries: it either resolves with the list
of result rows or rejects with an error message. -/
abbrev Executor := BuiltQuery → Except String (List JsonValue)

/-- The full GET (list) handler over parsed params: build the query, run
it through the executor, and wrap the outcome in the envelope;
`meta.total` is the length of the returned row list, and `page`/`limit`
echo the (truthy) request parameters. -/
def runGETp (schema : Schema) (pathParts : List String) (params : QueryParams) (exec : Executor) : ApiResult :=
  match buildGETp schema pathParts params with
  | .error r => r
  | .ok q =>
    match exec q with
    | .ok rows =>
      { status := 200
        body := { success := true
                  data := some (.arr rows)
                  meta := some { total := some rows.length
                                 page := if natTruthy params.page then params.page else none
                                 limit := if natTruthy params.limit then params.limit else none } } }
    | .error msg =>
      { status := 500
        body := { success := false, error := some "Database query failed", message := some msg } }

/-- The full GET (list) handler from the raw query string. -/
def runGET (schema : Schema) (pathParts : List String) (raw : RawQuery) (exec : Executor) : ApiResult :=
  runGETp schema pathParts (parseQueryParams raw) exec

/-! GET by id. -/

/-- Id coercion of the GET-by-id handler: an id segment matching `/^\d+$/`
(non-empty, decimal digits only) is converted with `Number(...)` before
the lookup, anything else is used as the string itself. -/
def coerceId (id : String) : JsonValue :=
  if !id.isEmpty && id.toList.all Char.isDigit then .num (digitsToNat id.toList)
  else .str id

/-- The `GET /{table}/{id}` handler up to the executor: path must supply table and id;
the table must exist and have an `id` column; the single query is an
equality lookup on the `id` column with `limit 1`. -/
def buildGETBYID (schema : Schema) (pathParts : List String) : Except ApiResult BuiltQuery :=
  match stripApiSegments pathParts with
  | t :: i :: _ =>
    if t.isEmpty || i.isEmpty then
      .error (errorResponse 400 "Table name and id required in URL path")
    else
      match List.lookup t schema with
      | none => .error (errorResponse 404 ("Table \"" ++ t ++ "\" not found"))
      | some cols =>
        if cols.contains "id" then
          .ok { table := t, whereCond := some (.eq "id" (coerceId i)), limit := some 1 }
        else .error (errorResponse 400 "No id column in table")
  | _ => .error (errorResponse 400 "Table name and id required in URL path")

/-- The full GET-by-id handler: zero rows yield a 404 not-found failure;
otherwise the first row is returned as a single object under `data`. -/
def runGETBYID (schema : Schema) (pathParts : List String) (exec : Executor) : ApiResult :=
  match buildGETBYID schema pathParts with
  | .error r => r
  | .ok q =>
    match exec q with
    | .ok rows =>
      match rows with
      | [] => errorResponse 404 "Record not found"
      | r :: _ => { status := 200, body := { success := true, data := some r } }
    | .error msg =>
      { status := 500
        body := { success := false, error := some "Database query failed", message := some msg } }

/-! Update (PUT / PATCH) and delete. -/

/-- The update/delete filter validation: the parsed `where` must be truthy,
of object type, with exactly one own key, and that key must be `id`
(`!params.where || typeof params.where !== 'object' ||
Object.keys(params.where).length !== 1 || !('id' in params.where)`). -/
def isIdOnlyWhere : Option JsonValue → Bool
  | some v => jsTruthy v && isObjectType v && (jsKeys v).length == 1 && (jsKeys v).contains "id"
  | none => false

/-- The update execution handed to the executor (`db.update(table)
.set(data).where(cond).returning()`). -/
structure BuiltUpdate where
  table : String
  setData : JsonValue
  whereCond : Predicate

/-- The delete execution handed to the executor (`db.delete(table)
.where(cond).returning()`). -/
structure BuiltDelete where
  table : String
  whereCond : Predicate

/-- The request body as resolved by `request.json()`: `none` means the
promise rejected (invalid JSON in the body), `some v` that it resolved to
`v`. -/
abbrev BodyResult := Option JsonValue

/-- The PUT (update) handler up to the executor: table checks, then the
id-only filter validation, then body parsing/validation, then predicate
compilation (a predicateless filter fails with 400). -/
def buildPUT (schema : Schema) (pathParts : List String) (raw : RawQuery) (body : BodyResult) :
    Except ApiResult BuiltUpdate :=
  match extractTableFromParts pathParts with
  | none => .error (errorResponse 400 "Table name is required in URL path")
  | some tableName =>
    match List.lookup tableName schema with
    | none => .error (errorResponse 404 ("Table \"" ++ tableName ++ "\" not found"))
    | some cols =>
      let params := parseQueryParams raw
      if ¬ isIdOnlyWhere params.whereObj then
        .error (errorResponse 400 "Update is only allowed by id. Use ?where=\x7b\x22id\x22:1\x7d")
      else
        match body with
        | none => .error (errorResponse 400 "Invalid JSON in request body")
        | some data =>
          if ¬ (jsTruthy data && isObjectType data) then
            .error (errorResponse 400 "Request body with update data is required")
          else
            match params.whereObj with
            | some w =>
              match buildWhereCondition w cols with
              | none => .error (errorResponse 400 "Invalid WHERE condition")
              | some c => .ok { table := tableName, setData := data, whereCond := c }
            | none => .error (errorResponse 400 "Invalid WHERE condition")

/-- An executor for update mutations (resolves with the affected rows). -/
abbrev UpdateExecutor := BuiltUpdate → Except String (List JsonValue)

/-- The full PUT handler. -/
def runPUT (schema : Schema) (pathParts : List String) (raw : RawQuery) (body : BodyResult)
    (exec : UpdateExecutor) : ApiResult :=
  match buildPUT schema pathParts raw body with
  | .error r => r
  | .ok u =>
    match exec u with
    | .ok rows =>
      { status := 200
        body := { success := true
                  data := some (.arr rows)
                  message := some ("Successfully updated " ++ toString rows.length ++ " record(s)") } }
    | .error msg =>
      { status := 500
        body := { success := false, error := some "Database update failed", message := some msg } }

/-- The PATCH handler. In the source PATCH re-invokes
`createHandler(config)` on the same config and calls the resulting PUT
handler on the request; `createHandler` is pure, so the re-built PUT
handler is `runPUT schema`. -/
def runPATCH (schema : Schema) (pathParts : List String) (raw : RawQuery) (body : BodyResult)
    (exec : UpdateExecutor) : ApiResult :=
  runPUT schema pathParts raw body exec

/-- The DELETE handler up to the executor: table checks, the same id-only
filter validation as PUT (no body), then predicate compilation. -/
def buildDELETE (schema : Schema) (pathParts : List String) (raw : RawQuery) :
    Except ApiResult BuiltDelete :=
  match extractTableFromParts pathParts with
  | none => .error (errorResponse 400 "Table name is required in URL path")
  | some tableName =>
    match List.lookup tableName schema with
    | none => .error (errorResponse 404 ("Table \"" ++ tableName ++ "\" not found"))
    | some cols =>
      let params := parseQueryParams raw
      if ¬ isIdOnlyWhere params.whereObj then
        .error (errorResponse 400 "Delete is only allowed by id. Use ?where=\x7b\x22id\x22:1\x7d")
      else
        match params.whereObj with
        | some w =>
          match buildWhereCondition w cols with
          | none => .error (errorResponse 400 "Invalid WHERE condition")
          | some c => .ok { table := tableName, whereCond := c }
        | none => .error (errorResponse 400 "Invalid WHERE condition")

/-- An executor for delete mutations (resolves with the affected rows). -/
abbrev DeleteExecutor := BuiltDelete → Except String (List JsonValue)

/-- The full DELETE handler. -/
def runDELETE (schema : Schema) (pathParts : List String) (raw : RawQuery)
    (exec : DeleteExecutor) : ApiResult :=
  match buildDELETE schema pathParts raw with
  | .error r => r
  | .ok d =>
    match exec d with
    | .ok rows =>
      { status := 200
        body := { success := true
                  data := some (.arr rows)
                  message := some ("Successfully deleted " ++ toString rows.length ++ " record(s)") } }
    | .error msg =>
      { status := 500
        body := { success := false, error := some "Database delete failed", message := some msg } }

/-! OpenAPI schema generation (`generateOpenAPISpec`). -/

/-- Column metadata as the generator reads it off a drizzle column object:
its SQL data type string, its `notNull` flag, and whether it carries a
default (`defaultNow`/`defaultRandom`/`hasDefault`). -/
structure ColumnDef where
  dataType : String := ""
  notNull : Bool := false
  hasDefault : Bool := false

/-- Scalar type inference of the generator: a data type containing `int`
or equal to `number` maps to `number`, `boolean` to `boolean`,
`date`/`timestamp` to `string` with a `date-time` format, anything else to
plain `string`. -/
def openApiFieldType (dataType : String) : String × Option String :=
  if (dataType.splitOn "int").length > 1 || dataType = "number" then ("number", none)
  else if dataType = "boolean" then ("boolean", none)
  else if dataType = "date" || dataType = "timestamp" then ("string", some "date-time")
  else ("string", none)

/-- The per-table output/input JSON schema generated for the OpenAPI
document: typed properties plus the `required` list. -/
structure TableJsonSchema where
  properties : List (String × (String × Option String))
  required : List String

/-- The schema-generation loop of `generateOpenAPISpec` for one table:
`enableRLS` is excluded, each remaining column is typed from its data
type, and the column is added to `required` exactly when its metadata says
it is non-nullable (`fieldDef.notNull`, with the `isNullable()` fallback
reading the same nullability). -/
def generateTableSchema (tbl : List (String × ColumnDef)) : TableJsonSchema :=
  let fields := tbl.filter (fun p => p.1 ≠ "enableRLS")
  { properties := fields.map (fun p => (p.1, openApiFieldType p.2.dataType))
    required := (fields.filter (fun p => p.2.notNull)).map Prod.fst }

/-- The `required` list as the specification document describes it:
columns with neither a default nor nullability. This definition follows
the spec's words and exists only to be compared with
`generateTableSchema`, which is translated from the source. -/
def specRequiredColumns (tbl : List (String × ColumnDef)) : List String :=
  ((tbl.filter (fun p => p.1 ≠ "enableRLS")).filter
    (fun p => p.2.notNull && !p.2.hasDefault)).map Prod.fst

/-- The create-example payload generator (`buildExamplePayload`): columns
named `id`/`createdAt`/`updatedAt`/`enableRLS` and columns carrying a
default are excluded from create examples. -/
def exampleAutoExcluded (fieldName : String) (fd : ColumnDef) : Bool :=
  fieldName == "id" || fieldName == "createdAt" || fieldName == "updatedAt" ||
    fieldName == "enableRLS" || fd.hasDefault

/-! Demo schema and executors for concrete statements. -/

def demoSchema : Schema :=
  [("posts", ["id", "title", "createdAt"]), ("users", ["id", "name", "email"])]

def demoRows : List JsonValue :=
  [.obj [("id", .num 1)], .obj [("id", .num 2)]]

def execDemoRows : Executor := fun _ => .ok demoRows

def demoUserTable : List (String × ColumnDef) :=
  [("id", { dataType := "uuid", notNull := true, hasDefault := true }),
   ("name", { dataType := "varchar", notNull := true, hasDefault := false }),
   ("bio", { dataType := "varchar", notNull := false, hasDefault := false }),
   ("createdAt", { dataType := "timestamp", notNull := true, hasDefault := true })]

/-! Claim theorems. -/

/-- C2 counterexample: on a table whose `id` and `createdAt` columns are
non-nullable but carry defaults, the generated `required` list contains
them, while the specification's reading ("neither a default nor
nullability") would exclude them. -/
theorem required_includes_defaulted_columns_cx :
    (generateTableSchema demoUserTable).required = ["id", "name", "createdAt"]
    ∧ specRequiredColumns demoUserTable = ["name"]
    ∧ (generateTableSchema demoUserTable).required ≠ specRequiredColumns demoUserTable
    ∧ "id" ∈ (generateTableSchema demoUserTable).required := by
  refine ⟨rfl, rfl, ?_, ?_⟩
  · simp [generateTableSchema, specRequiredColumns, demoUserTable]
  · simp [generateTableSchema, demoUserTable]

/-- C2 (amended): the generated output schema's `required` list contains
exactly the non-`enableRLS` columns whose metadata is non-nullable,
regardless of whether they carry a default. -/
theorem required_is_notNull_columns (tbl : List (String × ColumnDef)) (c : String) :
    c ∈ (generateTableSchema tbl).required ↔
      ∃ d : ColumnDef, (c, d) ∈ tbl ∧ c ≠ "enableRLS" ∧ d.notNull = true := by
  simp only [generateTableSchema, List.mem_map, List.mem_filter]
  constructor
  · rintro ⟨⟨c', d⟩, ⟨⟨hmem, hrls⟩, hnn⟩, rfl⟩
    exact ⟨d, hmem, by simpa using hrls, hnn⟩
  · rintro ⟨d, hmem, hrls, hnn⟩
    exact ⟨⟨c, d⟩, ⟨⟨hmem, by simpa using hrls⟩, hnn⟩, rfl⟩

/-- C3: for every request (same table path, same raw query, same body, and
the same executor behavior), the PATCH handler returns exactly the PUT
handler's response: the source PATCH re-invokes `createHandler` on the
same config and calls the resulting PUT handler. -/
theorem patch_equals_put (schema : Schema) (pathParts : List String) (raw : RawQuery)
    (body : BodyResult) (exec : UpdateExecutor) :
    runPATCH schema pathParts raw body exec = runPUT schema pathParts raw body exec := rfl

/-- C9: when the built list query executes successfully, the response is a
200 success whose `data` is exactly the returned row sequence and whose
`meta.total` is the length of that sequence (the count of rows actually
returned, not a full-table count). -/
theorem meta_total_counts_returned_rows (schema : Schema) (pathParts : List String)
    (raw : RawQuery) (exec : Executor) (q : BuiltQuery) (rows : List JsonValue)
    (hq : buildGET schema pathParts raw = .ok q) (hx : exec q = .ok rows) :
    (runGET schema pathParts raw exec).status = 200
    ∧ (runGET schema pathParts raw exec).body.success = true
    ∧ (runGET schema pathParts raw exec).body.data = some (.arr rows)
    ∧ ((runGET schema pathParts raw exec).body.meta.map RespMeta.total) = some (some rows.length) := by
  unfold buildGET at hq
  unfold runGET runGETp
  rw [hq]
  dsimp only
  rw [hx]
  exact ⟨rfl, rfl, rfl, rfl⟩

/-- C9 witness. -/
theorem meta_total_counts_returned_rows_witness :
    (runGET demoSchema ["posts"] {} execDemoRows).body.data = some (.arr demoRows)
    ∧ ((runGET demoSchema ["posts"] {} execDemoRows).body.meta.map RespMeta.total) = some (some 2) := by
  have h := meta_total_counts_returned_rows demoSchema ["posts"] {} execDemoRows
    { table := "posts" } demoRows rfl rfl
  exact ⟨h.2.2.1, h.2.2.2⟩

/-- C10: a `where` or `orderBy` query parameter that is present but not
parseable JSON is treated exactly as if it were absent: the handler
produces the same built query and the same response, so no 400 is raised
and no filter (resp. ordering) is applied. -/
theorem malformed_where_orderby_ignored (schema : Schema) (pathParts : List String)
    (raw : RawQuery) (exec : Executor) :
    runGET schema pathParts { raw with whereRaw := some none } exec
        = runGET schema pathParts { raw with whereRaw := none } exec
    ∧ runGET schema pathParts { raw with orderByRaw := some none } exec
        = runGET schema pathParts { raw with orderByRaw := none } exec
    ∧ buildGET demoSchema ["posts"] { whereRaw := some none } = .ok { table := "posts" }
    ∧ runGET demoSchema ["posts"] { whereRaw := some none } execDemoRows
        = runGET demoSchema ["posts"] {} execDemoRows := by
  have h1 : parseQueryParams { raw with whereRaw := some none }
      = parseQueryParams { raw with whereRaw := none } := by
    simp [parseQueryParams]
  have h2 : parseQueryParams { raw with orderByRaw := some none }
      = parseQueryParams { raw with orderByRaw := none } := by
    simp [parseQueryParams]
  refine ⟨?_, ?_, rfl, rfl⟩
  · unfold runGET
    rw [h1]
  · unfold runGET
    rw [h2]


/-- C7: the GET-by-id builder performs an equality lookup on the `id`
column with the coerced id (digit-only strings become numbers, such as
"42" to 42; others stay strings, such as "abc") and limit 1; zero rows
from the executor yield a 404 not-found failure, and a match returns the
first row as a single object under `data`. -/
theorem get_by_id_coercion_and_envelope (schema : Schema) (pathParts : List String)
    (t i : String) (rest : List String) (cols : List String) (exec : Executor)
    (hps : stripApiSegments pathParts = t :: i :: rest)
    (ht : t.isEmpty = false) (hi : i.isEmpty = false)
    (hT : List.lookup t schema = some cols) (hid : cols.contains "id" = true) :
    buildGETBYID schema pathParts
        = .ok { table := t, whereCond := some (.eq "id" (coerceId i)), limit := some 1 }
    ∧ coerceId "42" = .num 42
    ∧ coerceId "abc" = .str "abc"
    ∧ (exec { table := t, whereCond := some (.eq "id" (coerceId i)), limit := some 1 } = .ok [] →
        runGETBYID schema pathParts exec = errorResponse 404 "Record not found")
    ∧ (∀ (r : JsonValue) (rs : List JsonValue),
        exec { table := t, whereCond := some (.eq "id" (coerceId i)), limit := some 1 } = .ok (r :: rs) →
        runGETBYID schema pathParts exec
          = { status := 200, body := { success := true, data := some r } }) := by
  have hb : buildGETBYID schema pathParts
      = .ok { table := t, whereCond := some (.eq "id" (coerceId i)), limit := some 1 } := by
    unfold buildGETBYID
    rw [hps]
    simp only [ht, hi, Bool.or_self, Bool.false_eq_true, if_false, hT, hid, if_true]
  refine ⟨hb, rfl, rfl, ?_, ?_⟩
  · intro hx
    unfold runGETBYID
    rw [hb]
    dsimp only
    rw [hx]
  · intro r rs hx
    unfold runGETBYID
    rw [hb]
    dsimp only
    rw [hx]

def execById : Executor := fun q =>
  match q.whereCond with
  | some (.eq _ (.num 42)) => .ok [.obj [("id", .num 42), ("title", .str "hello")]]
  | _ => .ok []

/-- C7 witness. -/
theorem get_by_id_coercion_and_envelope_witness :
    buildGETBYID demoSchema ["api", "posts", "42"]
      = .ok { table := "posts", whereCond := some (.eq "id" (.num 42)), limit := some 1 }
    ∧ runGETBYID demoSchema ["api", "posts", "42"] execById
      = { status := 200, body := { success := true, data := some (.obj [("id", .num 42), ("title", .str "hello")]) } }
    ∧ runGETBYID demoSchema ["users", "abc"] (fun _ => .ok []) = errorResponse 404 "Record not found" := by
  have h1 := get_by_id_coercion_and_envelope demoSchema ["api", "posts", "42"] "posts" "42" []
    ["id", "title", "createdAt"] execById rfl rfl rfl rfl rfl
  have h2 := get_by_id_coercion_and_envelope demoSchema ["users", "abc"] "users" "abc" []
    ["id", "name", "email"] (fun _ => .ok []) rfl rfl rfl rfl rfl
  exact ⟨h1.1, h1.2.2.2.2 _ _ rfl, h2.2.2.2.1 rfl⟩

/-- C4 counterexample: with `offset=0&page=2&limit=10` the built query's
offset is 10 (the page computation), not the given offset 0, because the
source's `if (params.offset)` treats 0 as falsy. -/
theorem offset_zero_not_used_cx :
    buildGET demoSchema ["posts"] { offset := some "0", page := some "2", limit := some "10" }
      = .ok { table := "posts", limit := some 10, offset := some 10 }
    ∧ (some 10 : Option Nat) ≠ some 0 := ⟨rfl, by decide⟩

/-- C4 (amended): a nonzero offset takes precedence over page; an offset
of 0 behaves exactly as an absent offset (so page wins then); with only
page and limit the effective offset is `(page-1)*limit`; page has no
effect when limit is absent; and the spec's concrete pagination tests
hold (`limit=10&page=2` gives offset 10, `offset=5&page=2&limit=10` gives
offset 5). -/
theorem offset_page_precedence (p : QueryParams) (o pg l : Nat) :
    (p.offset = some o → o ≠ 0 → effectiveOffset p = some o)
    ∧ (effectiveOffset { p with offset := some 0 } = effectiveOffset { p with offset := none })
    ∧ (p.offset = none → p.page = some pg → p.limit = some l → pg ≠ 0 → l ≠ 0 →
        effectiveOffset p = some ((pg - 1) * l))
    ∧ (p.offset = none → p.limit = none → effectiveOffset p = none)
    ∧ effectiveOffset (parseQueryParams { limit := some "10", page := some "2" }) = some 10
    ∧ effectiveOffset (parseQueryParams { offset := some "5", page := some "2", limit := some "10" }) = some 5 := by
  refine ⟨?_, ?_, ?_, ?_, rfl, rfl⟩
  · intro ho hno
    simp [effectiveOffset, natTruthy, ho, hno]
  · simp [effectiveOffset, natTruthy]
  · intro ho hpg hl hpg0 hl0
    simp [effectiveOffset, natTruthy, ho, hpg, hl, hpg0, hl0]
  · intro ho hl
    simp [effectiveOffset, natTruthy, ho, hl]

/-- C4 witness. -/
theorem offset_page_precedence_witness :
    effectiveOffset { limit := some 10, page := some 2 } = some 10
    ∧ effectiveOffset { limit := some 10, page := some 2, offset := some 5 } = some 5 := by
  have h1 := (offset_page_precedence { limit := some 10, page := some 2 } 0 2 10).2.2.1
    rfl rfl rfl (by decide) (by decide)
  have h2 := (offset_page_precedence { limit := some 10, page := some 2, offset := some 5 } 5 2 10).1
    rfl (by decide)
  exact ⟨h1, h2⟩


/-- C5: for update and delete on a known table, a parsed `where` filter
that is not an object with exactly one key named `id` fails with a 400
error before any executor involvement (for every executor, the response
is that 400); a filter of exactly one `id` key passes the validation and
proceeds to predicate compilation (yielding the equality predicate on the
`id` column when `id` is a real column). -/
theorem update_delete_filter_validation (schema : Schema) (pathParts : List String)
    (raw : RawQuery) (body : BodyResult) (t : String) (cols : List String) (v bodyVal : JsonValue)
    (hT : extractTableFromParts pathParts = some t)
    (hS : List.lookup t schema = some cols) :
    (isIdOnlyWhere (parseQueryParams raw).whereObj = false →
      buildPUT schema pathParts raw body
          = .error (errorResponse 400 "Update is only allowed by id. Use ?where=\x7b\x22id\x22:1\x7d")
      ∧ buildDELETE schema pathParts raw
          = .error (errorResponse 400 "Delete is only allowed by id. Use ?where=\x7b\x22id\x22:1\x7d")
      ∧ (∀ exec : UpdateExecutor, runPUT schema pathParts raw body exec
          = errorResponse 400 "Update is only allowed by id. Use ?where=\x7b\x22id\x22:1\x7d")
      ∧ (∀ exec : DeleteExecutor, runDELETE schema pathParts raw exec
          = errorResponse 400 "Delete is only allowed by id. Use ?where=\x7b\x22id\x22:1\x7d"))
    ∧ isIdOnlyWhere (some (.obj [("id", v)])) = true
    ∧ ((parseQueryParams raw).whereObj = some (.obj [("id", v)]) →
        body = some bodyVal → (jsTruthy bodyVal && isObjectType bodyVal) = true →
        cols.contains "id" = true → isObjectType v = false →
        buildPUT schema pathParts raw body
            = .ok { table := t, setData := bodyVal, whereCond := .eq "id" v }
        ∧ buildDELETE schema pathParts raw = .ok { table := t, whereCond := .eq "id" v }) := by
  constructor
  · intro hbad
    have hput : buildPUT schema pathParts raw body
        = .error (errorResponse 400 "Update is only allowed by id. Use ?where=\x7b\x22id\x22:1\x7d") := by
      unfold buildPUT
      rw [hT]
      dsimp only
      rw [hS]
      dsimp only
      simp [hbad]
    have hdel : buildDELETE schema pathParts raw
        = .error (errorResponse 400 "Delete is only allowed by id. Use ?where=\x7b\x22id\x22:1\x7d") := by
      unfold buildDELETE
      rw [hT]
      dsimp only
      rw [hS]
      dsimp only
      simp [hbad]
    refine ⟨hput, hdel, ?_, ?_⟩
    · intro exec
      unfold runPUT
      rw [hput]
    · intro exec
      unfold runDELETE
      rw [hdel]
  constructor
  · simp [isIdOnlyWhere, jsTruthy, isObjectType, jsKeys, jsOwnEntries]
  · intro hw hb hbv hcol hv
    have hgood : isIdOnlyWhere (parseQueryParams raw).whereObj = true := by
      rw [hw]
      simp [isIdOnlyWhere, jsTruthy, isObjectType, jsKeys, jsOwnEntries]
    have hF : fieldConds cols (.obj [("id", v)]) = [Predicate.eq "id" v] := by
      simp only [fieldConds, jsOwnEntries, List.filterMap_cons, List.filterMap_nil,
        fieldNodeCondition]
      rw [hcol, hv]
      simp
    have hbw : buildWhereCondition (.obj [("id", v)]) cols = some (.eq "id" v) := by
      rw [buildWhereCondition_unfold]
      rw [show logicalArrayConds (buildWhereRec cols) (.obj [("id", v)]) "AND" = [] from rfl]
      rw [show logicalArrayConds (buildWhereRec cols) (.obj [("id", v)]) "OR" = [] from rfl]
      rw [show logicalNotConds (buildWhereRec cols) (.obj [("id", v)]) = [] from rfl]
      rw [hF]
      rfl
    constructor
    · unfold buildPUT
      rw [hT]
      dsimp only
      rw [hS]
      dsimp only
      rw [hgood]
      simp only [not_true_eq_false, if_false, Bool.true_eq_false]
      rw [hb]
      dsimp only
      rw [hbv]
      simp only [not_true_eq_false, if_false, Bool.true_eq_false]
      rw [hw]
      dsimp only
      rw [hbw]
    · unfold buildDELETE
      rw [hT]
      dsimp only
      rw [hS]
      dsimp only
      rw [hgood]
      simp only [not_true_eq_false, if_false, Bool.true_eq_false]
      rw [hw]
      dsimp only
      rw [hbw]

def rawTwoKeys : RawQuery :=
  { whereRaw := some (some (.obj [("id", .num 1), ("name", .str "x")])) }

def rawIdOnly : RawQuery :=
  { whereRaw := some (some (.obj [("id", .num 1)])) }

/-- C5 witness. -/
theorem update_delete_filter_validation_witness :
    runPUT demoSchema ["users"] rawTwoKeys (some (.obj [("name", .str "y")])) (fun _ => .ok [])
        = errorResponse 400 "Update is only allowed by id. Use ?where=\x7b\x22id\x22:1\x7d"
    ∧ runDELETE demoSchema ["users"] rawTwoKeys (fun _ => .ok [])
        = errorResponse 400 "Delete is only allowed by id. Use ?where=\x7b\x22id\x22:1\x7d"
    ∧ buildPUT demoSchema ["users"] rawIdOnly (some (.obj [("name", .str "y")]))
        = .ok { table := "users", setData := .obj [("name", .str "y")], whereCond := .eq "id" (.num 1) }
    ∧ buildDELETE demoSchema ["users"] rawIdOnly
        = .ok { table := "users", whereCond := .eq "id" (.num 1) } := by
  have h1 := update_delete_filter_validation demoSchema ["users"] rawTwoKeys
    (some (.obj [("name", .str "y")])) "users" ["id", "name", "email"] (.num 1)
    (.obj [("name", .str "y")]) rfl rfl
  have h2 := update_delete_filter_validation demoSchema ["users"] rawIdOnly
    (some (.obj [("name", .str "y")])) "users" ["id", "name", "email"] (.num 1)
    (.obj [("name", .str "y")]) rfl rfl
  have hbad := h1.1 rfl
  have hgood := h2.2.2 rfl rfl rfl rfl rfl
  exact ⟨hbad.2.2.1 (fun _ => .ok []), hbad.2.2.2 (fun _ => .ok []), hgood.1, hgood.2⟩


/-- A single-field where-object compiles to exactly its field node's
condition: with no logical keys present, the logical parts contribute
nothing and the lone surviving condition is returned as-is. -/
theorem buildWhere_single_field (cols : List String) (col : String) (v : JsonValue)
    (hA : col ≠ "AND") (hO : col ≠ "OR") (hN : col ≠ "NOT") :
    buildWhereCondition (.obj [(col, v)]) cols = fieldNodeCondition cols col v := by
  have hA' : ("AND" == col) = false := beq_eq_false_iff_ne.mpr (Ne.symm hA)
  have hO' : ("OR" == col) = false := beq_eq_false_iff_ne.mpr (Ne.symm hO)
  have hN' : ("NOT" == col) = false := beq_eq_false_iff_ne.mpr (Ne.symm hN)
  have e1 : logicalArrayConds (buildWhereRec cols) (.obj [(col, v)]) "AND" = [] := by
    unfold logicalArrayConds
    simp [jsGet, List.lookup, hA']
  have e2 : logicalArrayConds (buildWhereRec cols) (.obj [(col, v)]) "OR" = [] := by
    unfold logicalArrayConds
    simp [jsGet, List.lookup, hO']
  have e3 : logicalNotConds (buildWhereRec cols) (.obj [(col, v)]) = [] := by
    unfold logicalNotConds
    simp [jsGet, List.lookup, hN']
  rw [buildWhereCondition_unfold]
  rw [show isObjectType (JsonValue.obj [(col, v)]) = true from rfl]
  rw [if_pos rfl, e1, e2, e3]
  unfold assembleConds fieldConds jsOwnEntries
  simp only [List.filterMap_cons, List.filterMap_nil]
  cases h : fieldNodeCondition cols col v with
  | none => simp
  | some c => simp [sqlAnd]

/-- C1 (amended): against a known column, `eq`, `gt`, `gte`, `lt`, `lte`
map 1:1 to the executor primitives of the same name, but `ne` maps to the
negation of `eq`, and both `like` and `ilike` map to the case-insensitive
`ilike` primitive (the source imports no case-sensitive `like` at all). -/
theorem operator_compilation_map (cols : List String) (col : String) (v : JsonValue)
    (hc : cols.contains col = true)
    (hA : col ≠ "AND") (hO : col ≠ "OR") (hN : col ≠ "NOT") :
    buildWhereCondition (.obj [(col, .obj [("eq", v)])]) cols = some (.eq col v)
    ∧ buildWhereCondition (.obj [(col, .obj [("ne", v)])]) cols = some (.not (.eq col v))
    ∧ buildWhereCondition (.obj [(col, .obj [("gt", v)])]) cols = some (.gt col v)
    ∧ buildWhereCondition (.obj [(col, .obj [("gte", v)])]) cols = some (.gte col v)
    ∧ buildWhereCondition (.obj [(col, .obj [("lt", v)])]) cols = some (.lt col v)
    ∧ buildWhereCondition (.obj [(col, .obj [("lte", v)])]) cols = some (.lte col v)
    ∧ buildWhereCondition (.obj [(col, .obj [("like", v)])]) cols = some (.ilike col v)
    ∧ buildWhereCondition (.obj [(col, .obj [("ilike", v)])]) cols = some (.ilike col v) := by
  refine ⟨?_, ?_, ?_, ?_, ?_, ?_, ?_, ?_⟩ <;>
    (rw [buildWhere_single_field cols col _ hA hO hN]
     simp only [fieldNodeCondition]
     rw [hc]
     simp [hA, hO, hN, jsOwnEntries, compileFieldOperator, isObjectType, sqlAnd])

/-- C1 counterexample: the `like` operator on a known column compiles to
the case-insensitive `ilike` primitive, not to the case-sensitive `like`
primitive the claim names. -/
theorem like_compiles_to_ilike_cx :
    buildWhereCondition (.obj [("title", .obj [("like", .str "%x%")])]) ["title"]
        = some (.ilike "title" (.str "%x%"))
    ∧ buildWhereCondition (.obj [("title", .obj [("like", .str "%x%")])]) ["title"]
        ≠ some (.like "title" (.str "%x%")) := by
  have h : buildWhereCondition (.obj [("title", .obj [("like", .str "%x%")])]) ["title"]
      = some (.ilike "title" (.str "%x%")) := by
    simp [buildWhereCondition_unfold, buildWhereRec_apply, logicalArrayConds, logicalNotConds,
      fieldConds, assembleConds, jsGet, jsOwnEntries, fieldNodeCondition, compileFieldOperator,
      isObjectType, sqlAnd, List.lookup]
  refine ⟨h, ?_⟩
  rw [h]
  intro hcon
  simp at hcon

/-- C1 witness. -/
theorem operator_compilation_map_witness :
    buildWhereCondition (.obj [("title", .obj [("eq", .str "a")])]) ["title"]
        = some (.eq "title" (.str "a"))
    ∧ buildWhereCondition (.obj [("title", .obj [("ilike", .str "%x%")])]) ["title"]
        = some (.ilike "title" (.str "%x%")) := by
  have h1 := operator_compilation_map ["title"] "title" (.str "a") rfl
    (by decide) (by decide) (by decide)
  have h2 := operator_compilation_map ["title"] "title" (.str "%x%") rfl
    (by decide) (by decide) (by decide)
  exact ⟨h1.1, h2.2.2.2.2.2.2.2⟩


theorem lookup_append_middle {β : Type} (k bad : String) (v : β) (pre post : List (String × β))
    (hne : (k == bad) = false) :
    List.lookup k (pre ++ (bad, v) :: post) = List.lookup k (pre ++ post) := by
  induction pre with
  | nil =>
    simp only [List.nil_append, List.lookup]
    rw [hne]
  | cons a as ih =>
    obtain ⟨k', w⟩ := a
    simp only [List.cons_append, List.lookup]
    cases hk : k == k' with
    | true => rfl
    | false => exact ih

theorem compileFieldOperator_unrecognized (col op : String) (w : JsonValue)
    (hop : (["eq", "ne", "gt", "gte", "lt", "lte", "like", "ilike"] : List String).contains op = false) :
    compileFieldOperator col op w = none := by
  have h := by simpa using hop
  obtain ⟨h1, h2, h3, h4, h5, h6, h7, h8⟩ := h
  unfold compileFieldOperator
  split <;> first | rfl | simp_all

/-- C8: a field entry whose name is not a known column (and is not one of
the logical keys) is silently dropped wherever it appears, and within a
field node an operator entry outside the recognized set is skipped
wherever it appears; the remaining conditions compile as if the entry had
not been there (and are still conjoined by the caller). -/
theorem unknown_fields_and_operators_dropped (cols : List String)
    (pre post pre2 post2 : List (String × JsonValue))
    (bad key badop : String) (v w : JsonValue)
    (hbad : cols.contains bad = false) (hA : bad ≠ "AND") (hO : bad ≠ "OR") (hN : bad ≠ "NOT")
    (hop : (["eq", "ne", "gt", "gte", "lt", "lte", "like", "ilike"] : List String).contains badop = false) :
    buildWhereCondition (.obj (pre ++ (bad, v) :: post)) cols
        = buildWhereCondition (.obj (pre ++ post)) cols
    ∧ fieldNodeCondition cols key (.obj (pre2 ++ (badop, w) :: post2))
        = fieldNodeCondition cols key (.obj (pre2 ++ post2)) := by
  have hA' : ("AND" == bad) = false := beq_eq_false_iff_ne.mpr (Ne.symm hA)
  have hO' : ("OR" == bad) = false := beq_eq_false_iff_ne.mpr (Ne.symm hO)
  have hN' : ("NOT" == bad) = false := beq_eq_false_iff_ne.mpr (Ne.symm hN)
  constructor
  · have hmid : fieldNodeCondition cols bad v = none := by
      unfold fieldNodeCondition
      rw [hbad]
      simp [hA, hO, hN]
    have eAND : jsGet (.obj (pre ++ (bad, v) :: post)) "AND" = jsGet (.obj (pre ++ post)) "AND" := by
      simp only [jsGet]
      exact lookup_append_middle "AND" bad v pre post hA'
    have eOR : jsGet (.obj (pre ++ (bad, v) :: post)) "OR" = jsGet (.obj (pre ++ post)) "OR" := by
      simp only [jsGet]
      exact lookup_append_middle "OR" bad v pre post hO'
    have eNOT : jsGet (.obj (pre ++ (bad, v) :: post)) "NOT" = jsGet (.obj (pre ++ post)) "NOT" := by
      simp only [jsGet]
      exact lookup_append_middle "NOT" bad v pre post hN'
    have eF : fieldConds cols (.obj (pre ++ (bad, v) :: post))
        = fieldConds cols (.obj (pre ++ post)) := by
      simp only [fieldConds, jsOwnEntries, List.filterMap_append, List.filterMap_cons, hmid]
    rw [buildWhereCondition_unfold, buildWhereCondition_unfold]
    simp only [isObjectType, if_true]
    unfold logicalArrayConds logicalNotConds
    rw [eAND, eOR, eNOT, eF]
  · have hmid : compileFieldOperator key badop w = none :=
      compileFieldOperator_unrecognized key badop w hop
    unfold fieldNodeCondition
    simp only [jsOwnEntries, List.filterMap_append, List.filterMap_cons, hmid, isObjectType, if_true]

/-- C8 witness. -/
theorem unknown_fields_and_operators_dropped_witness :
    buildWhereCondition (.obj [("title", .str "a"), ("bogus", .num 1)]) ["title"]
        = buildWhereCondition (.obj [("title", .str "a")]) ["title"]
    ∧ fieldNodeCondition ["title"] "title" (.obj [("foo", .num 1), ("eq", .str "a")])
        = fieldNodeCondition ["title"] "title" (.obj [("eq", .str "a")]) := by
  have h := unknown_fields_and_operators_dropped ["title"]
    [("title", .str "a")] [] [] [("eq", .str "a")]
    "bogus" "title" "foo" (.num 1) (.num 1)
    rfl (by decide) (by decide) (by decide) rfl
  exact ⟨h.1, h.2⟩


theorem selectStepF_error_status (cols : List String) (sel : Option (List String)) (r : ApiResult)
    (h : selectStepF cols sel = .error r) :
    r.status = 400 ∧ r.body.success = false := by
  cases sel with
  | none => simp [selectStepF] at h
  | some fields =>
    unfold selectStepF at h
    dsimp only at h
    by_cases h1 : fields.length > 0
    · rw [if_pos h1] at h
      by_cases h2 : (fields.filter (fun f => f = "*" || cols.contains f)).length = 0
      · rw [if_pos h2] at h
        simp only [Except.error.injEq] at h
        subst h
        exact ⟨rfl, rfl⟩
      · rw [if_neg h2] at h
        split at h <;> simp at h
    · rw [if_neg h1] at h
      simp at h

/-- Any violating entry (a key that is neither a real column nor the
literal `*`, or a direction that is not exactly `asc`/`desc`) makes the
order-validation loop fail with a 400 error. -/
theorem buildOrderConds_violation (cols : List String) :
    ∀ entries : List (String × JsonValue),
    (∃ e ∈ entries, (¬ (e.1 = "*" ∨ cols.contains e.1 = true)) ∨ dirOf e.2 = none) →
    ∃ r, buildOrderConds cols entries = .error r ∧ r.status = 400 ∧ r.body.success = false := by
  intro entries
  induction entries with
  | nil =>
    rintro ⟨e, he, _⟩
    cases he
  | cons a rest ih =>
    rintro ⟨e, he, hviol⟩
    obtain ⟨key, dv⟩ := a
    by_cases hkey : (key = "*" ∨ cols.contains key = true)
    · cases hd : dirOf dv with
      | none =>
        refine ⟨errorResponse 400 ("Invalid direction for field \"" ++ key ++ "\". Use \"asc\" or \"desc\""), ?_, rfl, rfl⟩
        unfold buildOrderConds
        rw [if_neg (not_not_intro hkey), hd]
      | some d =>
        rcases List.mem_cons.mp he with heq | hrest
        · subst heq
          rcases hviol with h | h
          · exact absurd hkey h
          · rw [hd] at h
            cases h
        · obtain ⟨r, hr, h4, h5⟩ := ih ⟨e, hrest, hviol⟩
          refine ⟨r, ?_, h4, h5⟩
          unfold buildOrderConds
          rw [if_neg (not_not_intro hkey), hd, hr]
    · refine ⟨errorResponse 400 ("Invalid field \"" ++ key ++ "\" in orderBy"), ?_, rfl, rfl⟩
      unfold buildOrderConds
      rw [if_pos hkey]

/-- C6 (amended): on a known table, an `orderBy` object containing any
entry whose key is neither a real column nor the literal `*`, or whose
direction is not exactly the string `asc` or `desc`, fails the whole
request with a 400 failure envelope, and the response is the same for
every executor (the executor is never consulted); a key of `*` bypasses
the column validation and is passed through as an undefined column
reference. -/
theorem orderby_validation_failfast (schema : Schema) (pathParts : List String) (raw : RawQuery)
    (t : String) (cols : List String) (entries : List (String × JsonValue))
    (hT : extractTableFromParts pathParts = some t)
    (hS : List.lookup t schema = some cols)
    (hOB : (parseQueryParams raw).orderBy = some (.obj entries))
    (hviol : ∃ e ∈ entries, (¬ (e.1 = "*" ∨ cols.contains e.1 = true)) ∨ dirOf e.2 = none) :
    ∃ r : ApiResult, buildGET schema pathParts raw = .error r ∧ r.status = 400
      ∧ r.body.success = false ∧ ∀ exec : Executor, runGET schema pathParts raw exec = r := by
  have horder : ∃ r, orderStepF cols (parseQueryParams raw).orderBy = .error r
      ∧ r.status = 400 ∧ r.body.success = false := by
    rw [hOB]
    unfold orderStepF
    dsimp only
    rw [if_pos (show jsTruthy (JsonValue.obj entries) = true from rfl)]
    exact buildOrderConds_violation cols entries hviol
  have hbuild : ∃ r, buildGETp schema pathParts (parseQueryParams raw) = .error r
      ∧ r.status = 400 ∧ r.body.success = false := by
    unfold buildGETp
    rw [hT]
    dsimp only
    rw [hS]
    dsimp only
    cases hsel : selectStepF cols (parseQueryParams raw).select with
    | error e =>
      obtain ⟨h1, h2⟩ := selectStepF_error_status cols _ e hsel
      exact ⟨e, rfl, h1, h2⟩
    | ok selCols =>
      obtain ⟨r, hr, h1, h2⟩ := horder
      rw [hr]
      exact ⟨r, rfl, h1, h2⟩
  obtain ⟨r, hr, h1, h2⟩ := hbuild
  refine ⟨r, ?_, h1, h2, ?_⟩
  · unfold buildGET
    exact hr
  · intro exec
    unfold runGET runGETp
    rw [hr]

/-- C6 counterexample: an `orderBy` key of `*` is not a real column of the
demo table, yet the request passes validation and builds a query whose
order term carries an undefined column reference, instead of failing with
400. -/
theorem star_orderby_bypasses_validation_cx :
    List.lookup "posts" demoSchema = some ["id", "title", "createdAt"]
    ∧ (["id", "title", "createdAt"] : List String).contains "*" = false
    ∧ buildGET demoSchema ["posts"] { orderByRaw := some (some (.obj [("*", .str "asc")])) }
        = .ok { table := "posts", orderConds := [{ column := none, dir := .asc }] } :=
  ⟨rfl, rfl, rfl⟩

/-- C6 witness. -/
theorem orderby_validation_failfast_witness :
    (runGET demoSchema ["posts"] { orderByRaw := some (some (.obj [("bogusField", .str "asc")])) }
        (fun _ => .ok [])).status = 400
    ∧ (runGET demoSchema ["posts"] { orderByRaw := some (some (.obj [("bogusField", .str "asc")])) }
        (fun _ => .ok [])).body.success = false := by
  obtain ⟨r, hb, h1, h2, hall⟩ := orderby_validation_failfast demoSchema ["posts"]
    { orderByRaw := some (some (.obj [("bogusField", .str "asc")])) } "posts"
    ["id", "title", "createdAt"] [("bogusField", .str "asc")] rfl rfl rfl
    ⟨("bogusField", .str "asc"), List.mem_singleton_self _, Or.inl (by decide)⟩
  rw [hall (fun _ => .ok [])]
  exact ⟨h1, h2⟩

end YukiDb
